import Mathlib

/-!
Verification development for the Dynasty Warriors 5 XL/E unit tool
(`DW5XLE_UNITTOOL.pyw`).  The tool locates a fixed 22-byte-per-slot unit
table inside a disc image by scanning for a 32-byte signature, loads the
table into memory, decodes/encodes individual 22-byte records, and writes
the table back into the image.  Bytes are modelled as `Nat` (each byte in
`[0, 256)`), Python integers as `Int`, files and buffers as `List Nat`.
-/

/-- 22 bytes per unit slot (`SLOT_SIZE`). -/
def SLOT_SIZE : Nat := 22

/-- 895 slots in the unit table (`NUM_SLOTS_TOTAL`). -/
def NUM_SLOTS_TOTAL : Nat := 895

/-- The 32-byte AOB signature used to locate the unit block (`AOB_PATTERN`). -/
def AOB_PATTERN : List Nat :=
  [0x14, 0x14, 0x14, 0x80, 0x14, 0x14, 0x14, 0x80,
   0x14, 0x14, 0x14, 0x80, 0x14, 0x14, 0x14, 0x80,
   0, 0, 0, 0, 0, 0, 0, 0, 0, 0, 0, 0, 0, 0, 0, 0]

/-- Python's `bytes.find`: index of the first occurrence of `pat` as a
contiguous sublist of `s`, or `none` (Python returns `-1`). -/
def findSub (pat : List Nat) : List Nat → Option Nat
  | [] => if pat <+: ([] : List Nat) then some 0 else none
  | a :: s =>
    if pat <+: (a :: s) then some 0
    else Option.map (fun i => i + 1) (findSub pat s)

/-- The chunked scanning loop of `_load_unit_data_in_memory`: reads the file
in 8000-byte chunks, keeps the last `len(AOB_PATTERN) - 1` bytes of the
previous search window as a tail so a match split across a chunk boundary is
still found, and on the first match returns
`(file_offset - len(prev_tail)) + idx + 0x3D0`.  `fuel` makes the recursion
structural; each iteration consumes at least one byte of `rest`, so
`rest.length + 1` fuel always suffices. -/
def scanLoop : Nat → List Nat → List Nat → Nat → Option Nat
  | 0, _, _, _ => none
  | _ + 1, [], _, _ => none
  | fuel + 1, a :: rs, prev_tail, file_offset =>
    let chunk := (a :: rs).take 8000
    let data := prev_tail ++ chunk
    match findSub AOB_PATTERN data with
    | some idx => some (file_offset - prev_tail.length + idx + 0x3D0)
    | none =>
      let plen := AOB_PATTERN.length
      let prev_tail' :=
        if plen - 1 ≤ data.length then data.drop (data.length - (plen - 1))
        else data
      scanLoop fuel ((a :: rs).drop 8000) prev_tail' (file_offset + chunk.length)

/-- The locator: scan the whole disc image for `AOB_PATTERN`, returning the
unit-table offset (match position plus `0x3D0`), or `none` when the
signature does not occur (`found_offset is None`). -/
def locate (file : List Nat) : Option Nat :=
  scanLoop (file.length + 1) file [] 0

/-- Failure conditions surfaced through the red status label. -/
inductive Err where
  | notFound        -- "Could not locate unit data block in ISO file."
  | truncatedRead   -- "Unexpected EOF: wanted ... bytes of unit data, got ..."
  | outOfRange      -- "Slot ... out of range ..."
  | fieldOutOfRange -- "Name ID must be between 0 and 65535."
  | sizeMismatch    -- "Mod/Backup size ... does not match expected ..."
  | notLoaded       -- "Unit data not loaded."
deriving DecidableEq

/-- Outcome of a boundary operation: the green/red status message. -/
inductive Outcome where
  | ok
  | err (e : Err)
deriving DecidableEq

/-- The 21 integer fields of one 22-byte unit record, as held by the TK
IntVars of `MainEditor` (Python ints, hence `Int`). -/
structure UnitRecord where
  name : Int           -- bytes 0-1, little-endian uint16
  unknown1 : Int       -- byte 2 (hidden)
  voice : Int          -- byte 3
  model : Int          -- byte 4
  color : Int          -- byte 5
  moveset : Int        -- byte 6
  horse : Int          -- byte 7
  life : Int           -- byte 8
  attack : Int         -- byte 9
  defense : Int        -- byte 10
  bow : Int            -- byte 11
  mounted : Int        -- byte 12
  speed : Int          -- byte 13
  strafespeed : Int    -- byte 14
  jump : Int           -- byte 15
  ailevel : Int        -- byte 16
  aitype : Int         -- byte 17
  unknown2 : Int       -- byte 18 (hidden)
  weapon : Int         -- byte 19
  weaponlevel : Int    -- byte 20
  orb : Int            -- byte 21
deriving DecidableEq

/-- Python `v & 0xFF` on an int, producing one byte value. -/
def byteOf (v : Int) : Nat := (v % 256).toNat

/-- The 22-byte record built by `submit_unit`: `name.to_bytes(2, "little")`
followed by the 19 single-byte fields, each masked with `& 0xFF`.
(`submit_unit` only calls this after validating `0 ≤ name ≤ 0xFFFF`.) -/
def encodeRecord (r : UnitRecord) : List Nat :=
  [r.name.toNat % 256, r.name.toNat / 256,
   byteOf r.unknown1, byteOf r.voice, byteOf r.model, byteOf r.color,
   byteOf r.moveset, byteOf r.horse, byteOf r.life, byteOf r.attack,
   byteOf r.defense, byteOf r.bow, byteOf r.mounted, byteOf r.speed,
   byteOf r.strafespeed, byteOf r.jump, byteOf r.ailevel, byteOf r.aitype,
   byteOf r.unknown2, byteOf r.weapon, byteOf r.weaponlevel, byteOf r.orb]

/-- `unit_display`'s field unpacking: a full 22-byte slice populates the
IntVars (`int.from_bytes(data[0:2], "little")` for the name, one byte per
remaining field); a short read is the "Unexpected end of unit data" error. -/
def decodeBytes : List Nat → Except Err UnitRecord
  | [b0, b1, b2, b3, b4, b5, b6, b7, b8, b9, b10,
     b11, b12, b13, b14, b15, b16, b17, b18, b19, b20, b21] =>
    Except.ok
      { name := (b0 : Int) + 256 * (b1 : Int), unknown1 := b2, voice := b3,
        model := b4, color := b5, moveset := b6, horse := b7, life := b8,
        attack := b9, defense := b10, bow := b11, mounted := b12,
        speed := b13, strafespeed := b14, jump := b15, ailevel := b16,
        aitype := b17, unknown2 := b18, weapon := b19, weaponlevel := b20,
        orb := b21 }
  | _ => Except.error Err.truncatedRead

/-- `MainEditor.unit_display` on the in-memory buffer: range-check the slot
index, read the 22-byte slice at `slot_index * SLOT_SIZE`, decode it. -/
def unit_display (buf : List Nat) (slot_index : Int) : Except Err UnitRecord :=
  if 0 ≤ slot_index ∧ slot_index < (NUM_SLOTS_TOTAL : Int) then
    decodeBytes ((buf.drop (slot_index.toNat * SLOT_SIZE)).take SLOT_SIZE)
  else Except.error Err.outOfRange

/-- `BytesIO`/file semantics of `seek(off); write(data)`: overwrite
`data.length` bytes starting at `off`, zero-filling any gap when `off` lies
beyond the end, never touching bytes outside `[off, off + data.length)`. -/
def writeAt (buf : List Nat) (off : Nat) (data : List Nat) : List Nat :=
  buf.take off ++ List.replicate (off - buf.length) 0 ++ data
    ++ buf.drop (off + data.length)

/-- `MainEditor.submit_unit` on the in-memory buffer: range-check the slot,
validate `0 <= name_val <= 0xFFFF` (raising before any byte is written),
then write the freshly packed 22-byte record over the slot's slice. -/
def submit_unit (buf : List Nat) (slot_index : Int) (r : UnitRecord) :
    Except Err (List Nat) :=
  if 0 ≤ slot_index ∧ slot_index < (NUM_SLOTS_TOTAL : Int) then
    if 0 ≤ r.name ∧ r.name ≤ 0xFFFF then
      Except.ok (writeAt buf (slot_index.toNat * SLOT_SIZE) (encodeRecord r))
    else Except.error Err.fieldOutOfRange
  else Except.error Err.outOfRange

/-- The editor's ambient in-memory state: `self.unit_mem` (the loaded table
buffer) and `self.iso_unit_offset` (the derived table offset). -/
structure EditorState where
  unit_mem : Option (List Nat)
  iso_unit_offset : Option Nat
deriving DecidableEq

/-- `MainEditor._load_unit_data_in_memory`, given the disc image's bytes and
the backup file's current contents for this image's derived name (`none`
when `os.path.exists(backup_path)` is false).  Returns the new editor
state, the new backup contents, and the status message.  On a failed scan
or a short table read the state is set to `(None, None)`; a backup is
written only when missing and only after a successful load. -/
def load_unit_data (st : EditorState) (backup : Option (List Nat))
    (file : List Nat) : EditorState × Option (List Nat) × Outcome :=
  match locate file with
  | none => (⟨none, none⟩, backup, Outcome.err Err.notFound)
  | some found_offset =>
    let data := (file.drop found_offset).take (SLOT_SIZE * NUM_SLOTS_TOTAL)
    if data.length = SLOT_SIZE * NUM_SLOTS_TOTAL then
      (⟨some data, some found_offset⟩,
       (match backup with
        | none => some data
        | some b => some b),
       Outcome.ok)
    else (⟨none, none⟩, backup, Outcome.err Err.truncatedRead)
  -- `st` is dead on every path: the loader overwrites the whole state.

/-- State-level `submit_unit`: fails with "Unit data not loaded." when no
buffer is loaded; otherwise encodes into the buffer, leaving the state
untouched on any error. -/
def submit_op (st : EditorState) (slot_index : Int) (r : UnitRecord) :
    EditorState × Outcome :=
  match st.unit_mem with
  | none => (st, Outcome.err Err.notLoaded)
  | some buf =>
    match submit_unit buf slot_index r with
    | Except.error e => (st, Outcome.err e)
    | Except.ok buf2 => (⟨some buf2, st.iso_unit_offset⟩, Outcome.ok)

/-- `MainEditor.create_unit_mod`: dump the whole in-memory buffer
(`unit_mem.getvalue()`) to the `.dw5xlemod` file; the state is never
touched, and with no buffer loaded nothing is written. -/
def create_unit_mod (st : EditorState) :
    EditorState × Option (List Nat) × Outcome :=
  match st.unit_mem with
  | none => (st, none, Outcome.err Err.notLoaded)
  | some buf => (st, some buf, Outcome.ok)

/-- `ModManager.enable_mod` on the disc image's bytes: reject a mod block
whose size differs from `block_size` before the image is opened, else seek
to the stored unit offset and overwrite the block in place. -/
def enable_mod (iso : List Nat) (iso_unit_offset : Nat) (block_size : Nat)
    (data : List Nat) : List Nat × Outcome :=
  if data.length = block_size then
    (writeAt iso iso_unit_offset data, Outcome.ok)
  else (iso, Outcome.err Err.sizeMismatch)

/-- `ModManager.disable_mod`: identical write-back logic for a backup
block. -/
def disable_mod (iso : List Nat) (iso_unit_offset : Nat) (block_size : Nat)
    (data : List Nat) : List Nat × Outcome :=
  if data.length = block_size then
    (writeAt iso iso_unit_offset data, Outcome.ok)
  else (iso, Outcome.err Err.sizeMismatch)

/-- One hex digit? (`0-9`, `a-f`, `A-F`). -/
def isHexDigit (c : Char) : Bool :=
  (('0' ≤ c ∧ c ≤ '9') ∨ ('a' ≤ c ∧ c ≤ 'f') ∨ ('A' ≤ c ∧ c ≤ 'F') : Prop)

/-- Value of a hex digit. -/
def hexVal (c : Char) : Nat :=
  if c ≤ '9' then c.toNat - 48 else if c ≤ 'F' then c.toNat - 55
  else c.toNat - 87

/-- Hex digits after the first one, allowing a single underscore between
digits (Python `int(s, 16)` grammar). -/
def parseHexRest (acc : Nat) : List Char → Option Nat
  | [] => some acc
  | '_' :: c :: cs =>
    if isHexDigit c then parseHexRest (acc * 16 + hexVal c) cs else none
  | c :: cs =>
    if isHexDigit c then parseHexRest (acc * 16 + hexVal c) cs else none

/-- A nonempty run of hex digits. -/
def parseHexBody : List Char → Option Nat
  | [] => none
  | c :: cs => if isHexDigit c then parseHexRest (hexVal c) cs else none

/-- After the sign: an optional `0x`/`0X` base marker (which may be
followed by one underscore) and then the digits. -/
def parseHexMagnitude : List Char → Option Nat
  | '0' :: 'x' :: '_' :: cs => parseHexBody cs
  | '0' :: 'x' :: cs => parseHexBody cs
  | '0' :: 'X' :: '_' :: cs => parseHexBody cs
  | '0' :: 'X' :: cs => parseHexBody cs
  | cs => parseHexBody cs

/-- Python `s.strip()` of surrounding whitespace. -/
def stripWS (cs : List Char) : List Char :=
  ((cs.dropWhile Char.isWhitespace).reverse.dropWhile Char.isWhitespace).reverse

/-- Python's `int(s, 16)`: optional surrounding whitespace, optional sign,
optional `0x` marker, nonempty hex digits; `none` models the `ValueError`
raised on any other string. -/
def pyIntHex (s : String) : Option Int :=
  match stripWS s.toList with
  | '+' :: cs => (parseHexMagnitude cs).map (fun n => (n : Int))
  | '-' :: cs => (parseHexMagnitude cs).map (fun n => -(n : Int))
  | cs => (parseHexMagnitude cs).map (fun n => (n : Int))

/-- `MainEditor._get_selected_slot_index`: parse the selected hex string,
silently falling back to slot `0` on a `ValueError`. -/
def get_selected_slot_index (s : String) : Int :=
  (pyIntHex s).getD 0

/-- `MainEditor.slot_selected`: re-display whichever slot the selector
parses to. -/
def slot_selected (buf : List Nat) (s : String) : Except Err UnitRecord :=
  unit_display buf (get_selected_slot_index s)

/-- `submit_unit` as invoked from the GUI: the slot index comes from
`_get_selected_slot_index` inside the same `try` block. -/
def submit_from_selector (buf : List Nat) (s : String) (r : UnitRecord) :
    Except Err (List Nat) :=
  submit_unit buf (get_selected_slot_index s) r

instance exceptDecidableEq {E A : Type} [DecidableEq E] [DecidableEq A] :
    DecidableEq (Except E A) := fun a b =>
  match a, b with
  | Except.ok x, Except.ok y =>
    if h : x = y then isTrue (by rw [h]) else isFalse (by simp [h])
  | Except.error x, Except.error y =>
    if h : x = y then isTrue (by rw [h]) else isFalse (by simp [h])
  | Except.ok _, Except.error _ => isFalse (by simp)
  | Except.error _, Except.ok _ => isFalse (by simp)

lemma seg_drop (F : List Nat) (base n i : Nat) :
    ((F.drop base).take n).drop i = (F.drop (base + i)).take (n - i) := by
  rw [List.drop_take, List.drop_drop]

lemma occurs_of_window {F : List Nat} {base n i : Nat}
    (h : AOB_PATTERN <+: ((F.drop base).take n).drop i) :
    AOB_PATTERN <+: F.drop (base + i) := by
  rw [seg_drop] at h
  exact (List.prefix_take_iff.mp h).1

lemma window_of_occurs {F : List Nat} {base n i : Nat}
    (h : AOB_PATTERN <+: F.drop (base + i)) (hn : i + 32 ≤ n) :
    AOB_PATTERN <+: ((F.drop base).take n).drop i := by
  rw [seg_drop]
  refine List.prefix_take_iff.mpr ⟨h, ?_⟩
  have hl : AOB_PATTERN.length = 32 := rfl
  omega

lemma findSub_none_iff (pat s : List Nat) :
    findSub pat s = none ↔ ∀ j, ¬ pat <+: s.drop j := by
  induction s with
  | nil =>
    by_cases h : pat <+: ([] : List Nat)
    · simp only [findSub, if_pos h]
      constructor
      · intro hcontra; cases hcontra
      · intro hall; exact absurd (by simpa using h) (hall 0)
    · simp only [findSub, if_neg h]
      constructor
      · intro _ j
        simpa using h
      · intro _; trivial
  | cons a s ih =>
    by_cases h : pat <+: (a :: s)
    · simp only [findSub, if_pos h]
      constructor
      · intro hcontra; cases hcontra
      · intro hall; exact absurd (by simpa using h) (hall 0)
    · simp only [findSub, if_neg h, Option.map_eq_none']
      rw [ih]
      constructor
      · intro hall j
        cases j with
        | zero => simpa using h
        | succ k => simpa using hall k
      · intro hall j
        simpa using hall (j + 1)

lemma findSub_some_iff (pat s : List Nat) (i : Nat) :
    findSub pat s = some i ↔
      (pat <+: s.drop i ∧ ∀ j, j < i → ¬ pat <+: s.drop j) := by
  induction s generalizing i with
  | nil =>
    constructor
    · intro hfs
      by_cases h : pat <+: ([] : List Nat)
      · simp only [findSub, if_pos h] at hfs
        obtain rfl : (0 : Nat) = i := by injection hfs
        exact ⟨by simpa using h, fun j hj => absurd hj (by omega)⟩
      · simp only [findSub, if_neg h] at hfs
        cases hfs
    · rintro ⟨hocc, hmin⟩
      have h : pat <+: ([] : List Nat) := by simpa using hocc
      have hi : i = 0 := by
        by_contra hne
        exact (hmin 0 (by omega)) (by simpa using h)
      simp only [findSub, if_pos h, hi]
  | cons a s ih =>
    constructor
    · intro hfs
      by_cases h : pat <+: (a :: s)
      · simp only [findSub, if_pos h] at hfs
        obtain rfl : (0 : Nat) = i := by injection hfs
        exact ⟨by simpa using h, fun j hj => absurd hj (by omega)⟩
      · simp only [findSub, if_neg h, Option.map_eq_some'] at hfs
        obtain ⟨k, hk, rfl⟩ := hfs
        obtain ⟨hocc, hmin⟩ := (ih k).mp hk
        refine ⟨by simpa using hocc, ?_⟩
        intro j hj
        cases j with
        | zero => simpa using h
        | succ m => simpa using hmin m (by omega)
    · rintro ⟨hocc, hmin⟩
      cases i with
      | zero =>
        have h : pat <+: (a :: s) := by simpa using hocc
        simp only [findSub, if_pos h]
      | succ k =>
        have h : ¬ pat <+: (a :: s) := by simpa using hmin 0 (by omega)
        simp only [findSub, if_neg h, Option.map_eq_some']
        refine ⟨k, (ih k).mpr ⟨by simpa using hocc, ?_⟩, rfl⟩
        intro j hj
        simpa using hmin (j + 1) (by omega)

lemma scanLoop_found (fuel a : Nat) (rs tail : List Nat) (off idx : Nat)
    (h : findSub AOB_PATTERN (tail ++ (a :: rs).take 8000) = some idx) :
    scanLoop (fuel + 1) (a :: rs) tail off
      = some (off - tail.length + idx + 0x3D0) := by
  simp only [scanLoop, h]

lemma scanLoop_not_found (fuel a : Nat) (rs tail : List Nat) (off : Nat)
    (h : findSub AOB_PATTERN (tail ++ (a :: rs).take 8000) = none) :
    scanLoop (fuel + 1) (a :: rs) tail off
      = scanLoop fuel ((a :: rs).drop 8000)
          (if AOB_PATTERN.length - 1 ≤ (tail ++ (a :: rs).take 8000).length
           then (tail ++ (a :: rs).take 8000).drop
                  ((tail ++ (a :: rs).take 8000).length - (AOB_PATTERN.length - 1))
           else tail ++ (a :: rs).take 8000)
          (off + ((a :: rs).take 8000).length) := by
  simp only [scanLoop, h]

lemma scanLoop_eq (F : List Nat) (fuel : Nat) :
    ∀ (off base : Nat) (tail : List Nat),
      (F.drop off).length < fuel →
      off ≤ F.length →
      base = off - 31 →
      tail = (F.drop base).take (off - base) →
      (∀ p, p + 32 ≤ off → ¬ AOB_PATTERN <+: F.drop p) →
      scanLoop fuel (F.drop off) tail off
        = Option.map (fun i => i + 0x3D0) (findSub AOB_PATTERN F) := by
  induction fuel with
  | zero =>
    intro off base tail hfuel _ _ _ _
    omega
  | succ fuel ih =>
    intro off base tail hfuel hoff hbase htail hinv
    have hplen : AOB_PATTERN.length = 32 := rfl
    rcases hFd : F.drop off with _ | ⟨a, rs⟩
    · -- end of file with no match: the signature occurs nowhere
      have hlenF : F.length ≤ off := List.drop_eq_nil_iff.mp hFd
      have hnone : findSub AOB_PATTERN F = none := by
        rw [findSub_none_iff]
        intro j hpre
        by_cases hj : j + 32 ≤ off
        · exact hinv j hj hpre
        · have h32 : AOB_PATTERN.length ≤ (F.drop j).length := hpre.length_le
          rw [List.length_drop, hplen] at h32
          omega
      rw [hnone]
      simp [scanLoop]
    · -- one more chunk is searched
      have hlen_drop : (F.drop off).length = F.length - off := List.length_drop off F
      -- the chunk read in this iteration
      have hchunk : (a :: rs).take 8000 = (F.drop off).take 8000 := by rw [hFd]
      have hclen : ((a :: rs).take 8000).length = min 8000 (F.length - off) := by
        rw [hchunk, List.length_take, List.length_drop]
      set c := ((a :: rs).take 8000).length with hc
      -- the search window covers file positions [base, off + c)
      have hdata : tail ++ (a :: rs).take 8000 = (F.drop base).take (off - base + 8000) := by
        rw [htail, hchunk, List.take_add]
        have : (F.drop base).drop (off - base) = F.drop off := by
          rw [List.drop_drop]
          congr 1
          omega
        rw [this]
      have hdlen : (tail ++ (a :: rs).take 8000).length = (off - base) + c := by
        rw [hdata, List.length_take, List.length_drop]
        omega
      rcases hfind : findSub AOB_PATTERN (tail ++ (a :: rs).take 8000) with _ | idx
      · -- no match in this window: recurse with the new tail
        rw [scanLoop_not_found fuel a rs tail off hfind]
        have hrest : (a :: rs).drop 8000 = F.drop (off + c) := by
          have h1 : (a :: rs).drop 8000 = (F.drop off).drop 8000 := by rw [hFd]
          rw [h1, List.drop_drop]
          rcases Nat.le_total 8000 (F.length - off) with hle | hle
          · congr 1
            omega
          · have e1 : F.drop (off + 8000) = [] := by
              rw [List.drop_eq_nil_iff]
              omega
            have e2 : F.drop (off + c) = [] := by
              rw [List.drop_eq_nil_iff]
              omega
            rw [e1, e2]
        have hne : (F.drop off).length = rs.length + 1 := by rw [hFd]; rfl
        have hfuel2 : (F.drop (off + c)).length < fuel := by
          rw [List.length_drop]
          omega
        have hoff2 : off + c ≤ F.length := by omega
        have hinv2 : ∀ p, p + 32 ≤ off + c → ¬ AOB_PATTERN <+: F.drop p := by
          intro p hp hpre
          by_cases hpo : p + 32 ≤ off
          · exact hinv p hpo hpre
          · have hpb : base ≤ p := by omega
            have hwin : AOB_PATTERN <+: ((F.drop base).take (off - base + 8000)).drop (p - base) := by
              refine window_of_occurs ?_ (by omega)
              have : base + (p - base) = p := by omega
              rw [this]
              exact hpre
            rw [← hdata] at hwin
            exact (findSub_none_iff AOB_PATTERN _).mp hfind (p - base) hwin
        -- the new tail is the last `min 31 (off + c)` bytes of the processed part
        have htail2 :
            (if AOB_PATTERN.length - 1 ≤ (tail ++ (a :: rs).take 8000).length
             then (tail ++ (a :: rs).take 8000).drop
                    ((tail ++ (a :: rs).take 8000).length - (AOB_PATTERN.length - 1))
             else tail ++ (a :: rs).take 8000)
              = (F.drop (off + c - 31)).take (off + c - (off + c - 31)) := by
          rw [hplen, hdlen, hdata]
          by_cases hcase : 31 ≤ (off - base) + c
          · rw [if_pos (by omega)]
            rw [List.drop_take, List.drop_drop]
            have e1 : base + ((off - base) + c - 31) = off + c - 31 := by omega
            rw [e1, List.take_eq_take]
            simp only [List.length_drop]
            omega
          · rw [if_neg (by omega)]
            -- the whole processed part is shorter than 31 bytes
            have hb0 : base = 0 := by omega
            have ho31 : off + c < 31 := by omega
            have e1 : off + c - 31 = 0 := by omega
            rw [hb0, e1]
            rw [List.take_eq_take]
            simp only [List.length_drop, Nat.sub_zero]
            omega
        rw [htail2, hrest]
        exact ih (off + c) (off + c - 31) _ hfuel2 hoff2 rfl rfl hinv2
      · -- first match found: its window position gives the first file position
        rw [scanLoop_found fuel a rs tail off idx hfind]
        obtain ⟨hocc, hmin⟩ := (findSub_some_iff AOB_PATTERN _ idx).mp hfind
        have htlen : tail.length = off - base := by
          rw [htail, List.length_take, List.length_drop]
          omega
        have hidx32 : idx + 32 ≤ (off - base) + c := by
          have := hocc.length_le
          rw [List.length_drop, hplen, hdlen] at this
          omega
        have hglobal : findSub AOB_PATTERN F = some (base + idx) := by
          rw [findSub_some_iff]
          constructor
          · rw [hdata] at hocc
            exact occurs_of_window hocc
          · intro q hq hpre
            by_cases hqo : q + 32 ≤ off
            · exact hinv q hqo hpre
            · have hqb : base ≤ q := by omega
              have hwin : AOB_PATTERN <+: ((F.drop base).take (off - base + 8000)).drop (q - base) := by
                refine window_of_occurs ?_ (by omega)
                have : base + (q - base) = q := by omega
                rw [this]
                exact hpre
              rw [← hdata] at hwin
              exact hmin (q - base) (by omega) hwin
        rw [hglobal]
        simp only [Option.map_some']
        congr 1
        omega

lemma locate_eq_findSub (file : List Nat) :
    locate file = Option.map (fun i => i + 0x3D0) (findSub AOB_PATTERN file) := by
  have h := scanLoop_eq file (file.length + 1) 0 0 []
    (by simp) (by omega) (by omega) (by simp)
    (by intro p hp; omega)
  simpa [locate] using h

/-- C1: `locate` returns the first occurrence position of the 32-byte
signature plus `0x3D0` whenever the signature occurs (the chunked scan with
its 31-byte overlap tail finds matches at any position, chunk-boundary
splits included), and returns the not-found result when the signature does
not occur anywhere in the file. -/
theorem locate_first_occurrence (file : List Nat) :
    (∀ P, AOB_PATTERN <+: file.drop P →
      (∀ q, q < P → ¬ AOB_PATTERN <+: file.drop q) →
      locate file = some (P + 0x3D0)) ∧
    ((∀ q, ¬ AOB_PATTERN <+: file.drop q) → locate file = none) := by
  constructor
  · intro P hocc hfirst
    rw [locate_eq_findSub, (findSub_some_iff AOB_PATTERN file P).mpr ⟨hocc, hfirst⟩]
    rfl
  · intro hnone
    rw [locate_eq_findSub, (findSub_none_iff AOB_PATTERN file).mpr hnone]
    rfl

/-- Witness for C1 at a concrete image: the signature placed at position 2
is located at `2 + 0x3D0`. -/
theorem locate_first_occurrence_witness :
    AOB_PATTERN <+: ([9, 9] ++ AOB_PATTERN ++ [1, 2, 3] : List Nat).drop 2 ∧
    locate ([9, 9] ++ AOB_PATTERN ++ [1, 2, 3]) = some (2 + 0x3D0) :=
  ⟨by decide, (locate_first_occurrence ([9, 9] ++ AOB_PATTERN ++ [1, 2, 3])).1 2
    (by decide) (by decide)⟩

lemma writeAt_of_le (buf d : List Nat) (off : Nat) (h : off ≤ buf.length) :
    writeAt buf off d = buf.take off ++ d ++ buf.drop (off + d.length) := by
  unfold writeAt
  rw [Nat.sub_eq_zero_of_le h, List.replicate_zero]
  simp

lemma writeAt_slice (buf d : List Nat) (off : Nat) (h : off ≤ buf.length) :
    ((writeAt buf off d).drop off).take d.length = d := by
  rw [writeAt_of_le buf d off h, List.append_assoc,
    List.drop_left' (by rw [List.length_take]; omega),
    List.take_left' rfl]

lemma writeAt_length (buf d : List Nat) (off : Nat)
    (h : off + d.length ≤ buf.length) :
    (writeAt buf off d).length = buf.length := by
  rw [writeAt_of_le buf d off (by omega)]
  simp only [List.length_append, List.length_take, List.length_drop]
  omega

lemma writeAt_getD (buf d : List Nat) (off j : Nat)
    (h : off + d.length ≤ buf.length) :
    (writeAt buf off d).getD j 0 =
      if j < off then buf.getD j 0
      else if j < off + d.length then d.getD (j - off) 0
      else buf.getD j 0 := by
  rw [writeAt_of_le buf d off (by omega), List.append_assoc]
  have hto : (buf.take off).length = off := by rw [List.length_take]; omega
  simp only [List.getD_eq_getElem?_getD]
  rw [List.getElem?_append, hto]
  by_cases h1 : j < off
  · rw [if_pos h1, if_pos h1, List.getElem?_take, if_pos h1]
  · rw [if_neg h1, if_neg h1, List.getElem?_append]
    by_cases h2 : j < off + d.length
    · rw [if_pos (by omega), if_pos h2]
    · rw [if_neg (by omega), if_neg h2, List.getElem?_drop]
      have e1 : off + d.length + (j - off - d.length) = j := by omega
      rw [e1]

/-- C4: submitting a field set whose Name lies outside `[0, 65535]` (for
example `70000`) raises the range `ValueError` before any byte is packed:
the reported condition is the Name-range failure and the in-memory buffer
(and the whole editor state) is byte-for-byte unchanged. -/
theorem submit_name_out_of_range (buf : List Nat) (o : Option Nat)
    (slot_index : Int) (r : UnitRecord)
    (hs : 0 ≤ slot_index ∧ slot_index < (NUM_SLOTS_TOTAL : Int))
    (hn : ¬ (0 ≤ r.name ∧ r.name ≤ 0xFFFF)) :
    submit_unit buf slot_index r = Except.error Err.fieldOutOfRange ∧
    submit_op ⟨some buf, o⟩ slot_index r
      = (⟨some buf, o⟩, Outcome.err Err.fieldOutOfRange) := by
  have h1 : submit_unit buf slot_index r = Except.error Err.fieldOutOfRange := by
    rw [submit_unit, if_pos hs, if_neg hn]
  exact ⟨h1, by simp only [submit_op, h1]⟩

/-- Record with Name 70000 for the C4 witness. -/
def rName70000 : UnitRecord :=
  ⟨70000, 0, 0, 0, 0, 0, 0, 0, 0, 0, 0, 0, 0, 0, 0, 0, 0, 0, 0, 0, 0⟩

/-- Witness for C4 at Name = 70000 on a concrete buffer. -/
theorem submit_name_out_of_range_witness :
    submit_unit [1, 2, 3] 0 rName70000 = Except.error Err.fieldOutOfRange ∧
    submit_op ⟨some [1, 2, 3], none⟩ 0 rName70000
      = (⟨some [1, 2, 3], none⟩, Outcome.err Err.fieldOutOfRange) :=
  submit_name_out_of_range [1, 2, 3] none 0 rName70000 (by decide) (by decide)

/-- C8: a slot index outside `[0, NUM_SLOTS_TOTAL)` makes `unit_display`
fail with the out-of-range status before any slot bytes are read; no field
values are produced. -/
theorem display_slot_out_of_range (buf : List Nat) (slot_index : Int)
    (h : slot_index < 0 ∨ (NUM_SLOTS_TOTAL : Int) ≤ slot_index) :
    unit_display buf slot_index = Except.error Err.outOfRange := by
  rw [unit_display, if_neg (by omega)]

/-- Witness for C8 at slot 895 (one past the last valid slot). -/
theorem display_slot_out_of_range_witness :
    unit_display [] 895 = Except.error Err.outOfRange :=
  display_slot_out_of_range [] 895 (by decide)

/-- C10: a selected-slot string that is not a valid hexadecimal integer
makes `_get_selected_slot_index` fall back to slot 0 (the `except
ValueError: return 0` path), so both the display path and the submit path
operate on slot 0 instead of failing. -/
theorem invalid_slot_string_falls_back (buf : List Nat) (s : String)
    (r : UnitRecord) (h : pyIntHex s = none) :
    get_selected_slot_index s = 0 ∧
    slot_selected buf s = unit_display buf 0 ∧
    submit_from_selector buf s r = submit_unit buf 0 r := by
  have h0 : get_selected_slot_index s = 0 := by
    rw [get_selected_slot_index, h]
    rfl
  exact ⟨h0, by rw [slot_selected, h0], by rw [submit_from_selector, h0]⟩

/-- All-zero record for the C10 witness. -/
def rZero : UnitRecord :=
  ⟨0, 0, 0, 0, 0, 0, 0, 0, 0, 0, 0, 0, 0, 0, 0, 0, 0, 0, 0, 0, 0⟩

/-- Witness for C10 at the unparsable selector string "zz". -/
theorem invalid_slot_string_falls_back_witness :
    pyIntHex "zz" = none ∧
    get_selected_slot_index "zz" = 0 ∧
    slot_selected [] "zz" = unit_display [] 0 ∧
    submit_from_selector [] "zz" rZero = submit_unit [] 0 rZero := by
  have h : pyIntHex "zz" = none := by decide
  obtain ⟨a, b, c⟩ := invalid_slot_string_falls_back [] "zz" rZero h
  exact ⟨h, a, b, c⟩

/-- C5: enabling or disabling a mod with a block whose length differs from
`NUM_SLOTS_TOTAL * SLOT_SIZE` (19690) fails with the size-mismatch status
before the image is opened, leaving its bytes unchanged; with a block of
exactly that length the block is written in place at the stored unit-table
offset — same length afterwards, bytes outside `[offset, offset + 19690)`
untouched, bytes inside equal to the block.  (The stored offset always
satisfies `offset + 19690 ≤ iso.length`, since loading read 19690 bytes
from it.) -/
theorem apply_block_size (iso block : List Nat) (off : Nat) :
    (block.length ≠ SLOT_SIZE * NUM_SLOTS_TOTAL →
      enable_mod iso off (SLOT_SIZE * NUM_SLOTS_TOTAL) block
        = (iso, Outcome.err Err.sizeMismatch) ∧
      disable_mod iso off (SLOT_SIZE * NUM_SLOTS_TOTAL) block
        = (iso, Outcome.err Err.sizeMismatch)) ∧
    (block.length = SLOT_SIZE * NUM_SLOTS_TOTAL →
      off + SLOT_SIZE * NUM_SLOTS_TOTAL ≤ iso.length →
      (enable_mod iso off (SLOT_SIZE * NUM_SLOTS_TOTAL) block).2 = Outcome.ok ∧
      (enable_mod iso off (SLOT_SIZE * NUM_SLOTS_TOTAL) block).1.length
        = iso.length ∧
      (∀ j, j < off ∨ off + SLOT_SIZE * NUM_SLOTS_TOTAL ≤ j →
        (enable_mod iso off (SLOT_SIZE * NUM_SLOTS_TOTAL) block).1.getD j 0
          = iso.getD j 0) ∧
      (∀ j, j < SLOT_SIZE * NUM_SLOTS_TOTAL →
        (enable_mod iso off (SLOT_SIZE * NUM_SLOTS_TOTAL) block).1.getD (off + j) 0
          = block.getD j 0) ∧
      disable_mod iso off (SLOT_SIZE * NUM_SLOTS_TOTAL) block
        = enable_mod iso off (SLOT_SIZE * NUM_SLOTS_TOTAL) block) := by
  constructor
  · intro hne
    rw [enable_mod, if_neg hne, disable_mod, if_neg hne]
    exact ⟨rfl, rfl⟩
  · intro hlen hfit
    have hen : enable_mod iso off (SLOT_SIZE * NUM_SLOTS_TOTAL) block
        = (writeAt iso off block, Outcome.ok) := by
      rw [enable_mod, if_pos hlen]
    have hwb : off + block.length ≤ iso.length := by omega
    refine ⟨by rw [hen], ?_, ?_, ?_, ?_⟩
    · rw [hen]
      exact writeAt_length iso block off hwb
    · intro j hj
      rw [hen]
      rcases hj with hj | hj
      · rw [writeAt_getD iso block off j hwb, if_pos hj]
      · rw [writeAt_getD iso block off j hwb, if_neg (by omega), if_neg (by omega)]
    · intro j hj
      rw [hen, writeAt_getD iso block off (off + j) hwb,
        if_neg (by omega), if_pos (by omega)]
      congr 1
      omega
    · rw [enable_mod, disable_mod]

/-- Witness for C5: a 1-byte block is rejected with the image unchanged; a
full-size block is applied successfully. -/
theorem apply_block_size_witness :
    enable_mod [5] 0 (SLOT_SIZE * NUM_SLOTS_TOTAL) [1]
      = ([5], Outcome.err Err.sizeMismatch) ∧
    (enable_mod (List.replicate (SLOT_SIZE * NUM_SLOTS_TOTAL) 0) 0
      (SLOT_SIZE * NUM_SLOTS_TOTAL)
      (List.replicate (SLOT_SIZE * NUM_SLOTS_TOTAL) 1)).2 = Outcome.ok :=
  ⟨((apply_block_size [5] [1] 0).1 (by decide)).1,
   ((apply_block_size (List.replicate (SLOT_SIZE * NUM_SLOTS_TOTAL) 0)
      (List.replicate (SLOT_SIZE * NUM_SLOTS_TOTAL) 1) 0).2
      (by simp) (by simp)).1⟩

/-- C6: when the signature is located but fewer than
`SLOT_SIZE * NUM_SLOTS_TOTAL` bytes are available at the computed table
offset, loading fails with the EOF size-mismatch status and the in-memory
buffer and offset end up unset (`None`) — no short buffer is kept. -/
theorem load_truncated_is_discarded (st : EditorState)
    (backup : Option (List Nat)) (file : List Nat) (off : Nat)
    (hloc : locate file = some off)
    (hshort : file.length < off + SLOT_SIZE * NUM_SLOTS_TOTAL) :
    load_unit_data st backup file
      = (⟨none, none⟩, backup, Outcome.err Err.truncatedRead) := by
  have hne : ((file.drop off).take (SLOT_SIZE * NUM_SLOTS_TOTAL)).length
      ≠ SLOT_SIZE * NUM_SLOTS_TOTAL := by
    rw [List.length_take, List.length_drop]
    have h19690 : SLOT_SIZE * NUM_SLOTS_TOTAL = 19690 := rfl
    omega
  simp only [load_unit_data, hloc, if_neg hne]

/-- Witness for C6: a file that is exactly the 32-byte signature locates
the table at `0x3D0` but holds no table bytes there. -/
theorem load_truncated_is_discarded_witness :
    locate AOB_PATTERN = some 0x3D0 ∧
    load_unit_data ⟨none, none⟩ none AOB_PATTERN
      = (⟨none, none⟩, none, Outcome.err Err.truncatedRead) :=
  ⟨by decide, load_truncated_is_discarded ⟨none, none⟩ none AOB_PATTERN 0x3D0
    (by decide) (by decide)⟩

/-- C7: the backup derived from the image's name is written at most once:
an existing backup is never overwritten by any later load; on a successful
load with no existing backup the persisted backup equals exactly the
freshly loaded table bytes; a failed load never creates a backup. -/
theorem backup_written_once (st : EditorState) (backup : Option (List Nat))
    (file : List Nat) :
    (∀ b, backup = some b → (load_unit_data st backup file).2.1 = some b) ∧
    (backup = none → (load_unit_data st backup file).2.2 = Outcome.ok →
      (load_unit_data st backup file).2.1
        = (load_unit_data st backup file).1.unit_mem) ∧
    (backup = none → (load_unit_data st backup file).2.2 ≠ Outcome.ok →
      (load_unit_data st backup file).2.1 = none) := by
  cases hl : locate file with
  | none =>
    refine ⟨?_, ?_, ?_⟩
    · intro b hb
      simp [load_unit_data, hl, hb]
    · intro hb hok
      exfalso
      simp [load_unit_data, hl] at hok
    · intro hb _
      simp [load_unit_data, hl, hb]
  | some off =>
    by_cases hlen : ((file.drop off).take (SLOT_SIZE * NUM_SLOTS_TOTAL)).length
        = SLOT_SIZE * NUM_SLOTS_TOTAL
    · refine ⟨?_, ?_, ?_⟩
      · intro b hb
        simp [load_unit_data, hl, hlen, hb]
      · intro hb _
        simp [load_unit_data, hl, hlen, hb]
      · intro hb hok
        exact absurd (by simp [load_unit_data, hl, hlen]) hok
    · have hlen2 : ¬ SLOT_SIZE * NUM_SLOTS_TOTAL ≤ file.length - off := by
        rw [List.length_take, List.length_drop] at hlen
        omega
      refine ⟨?_, ?_, ?_⟩
      · intro b hb
        simp [load_unit_data, hl, hlen2, hb]
      · intro hb hok
        exfalso
        simp [load_unit_data, hl, hlen2] at hok
      · intro hb _
        simp [load_unit_data, hl, hlen2, hb]

/-- Witness for C7: with an existing backup `[2]`, loading leaves the
backup bytes unchanged. -/
theorem backup_written_once_witness :
    (load_unit_data ⟨none, none⟩ (some [2]) []).2.1 = some [2] :=
  (backup_written_once ⟨none, none⟩ (some [2]) []).1 [2] rfl

/-- Counterexample to C3 as stated: a failing load does NOT leave the prior
in-memory state unchanged — loading an image without the signature clears a
previously loaded buffer and offset to `None`. -/
theorem boundary_failure_counterexample :
    (load_unit_data ⟨some [1], some 5⟩ none []).2.2 = Outcome.err Err.notFound ∧
    (load_unit_data ⟨some [1], some 5⟩ none []).1 ≠ ⟨some [1], some 5⟩ := by
  decide

/-- C3 amended: every boundary operation reports its failure condition as a
status message, and a failing submit, dump, enable or disable leaves the
prior state (buffer, offset, disc image, backup) unchanged; a failing load
instead resets the in-memory buffer and offset to unset (`None`), leaving
only the backup untouched. -/
theorem boundary_ops_failure_behavior (st : EditorState)
    (backup : Option (List Nat)) (file iso block : List Nat)
    (slot_index : Int) (r : UnitRecord) (off bs : Nat) :
    (∀ e, (submit_op st slot_index r).2 = Outcome.err e →
      (submit_op st slot_index r).1 = st) ∧
    (∀ e, (create_unit_mod st).2.2 = Outcome.err e →
      (create_unit_mod st).1 = st ∧ (create_unit_mod st).2.1 = none) ∧
    (∀ e, (enable_mod iso off bs block).2 = Outcome.err e →
      (enable_mod iso off bs block).1 = iso) ∧
    (∀ e, (disable_mod iso off bs block).2 = Outcome.err e →
      (disable_mod iso off bs block).1 = iso) ∧
    (∀ e, (load_unit_data st backup file).2.2 = Outcome.err e →
      (load_unit_data st backup file).1 = ⟨none, none⟩ ∧
      (load_unit_data st backup file).2.1 = backup) := by
  refine ⟨?_, ?_, ?_, ?_, ?_⟩
  · intro e he
    cases hm : st.unit_mem with
    | none => simp [submit_op, hm]
    | some buf =>
      cases hs : submit_unit buf slot_index r with
      | error e2 => simp [submit_op, hm, hs]
      | ok b2 => simp [submit_op, hm, hs] at he
  · intro e he
    cases hm : st.unit_mem with
    | none => simp [create_unit_mod, hm]
    | some buf => simp [create_unit_mod, hm] at he
  · intro e he
    by_cases hb : block.length = bs
    · rw [enable_mod, if_pos hb] at he
      cases he
    · rw [enable_mod, if_neg hb]
  · intro e he
    by_cases hb : block.length = bs
    · rw [disable_mod, if_pos hb] at he
      cases he
    · rw [disable_mod, if_neg hb]
  · intro e he
    cases hl : locate file with
    | none => simp [load_unit_data, hl]
    | some o =>
      by_cases hlen : ((file.drop o).take (SLOT_SIZE * NUM_SLOTS_TOTAL)).length
          = SLOT_SIZE * NUM_SLOTS_TOTAL
      · exfalso
        simp [load_unit_data, hl, hlen] at he
      · have hlen2 : ¬ SLOT_SIZE * NUM_SLOTS_TOTAL ≤ file.length - o := by
          rw [List.length_take, List.length_drop] at hlen
          omega
        simp [load_unit_data, hl, hlen2]

/-- Witness for the amended C3: a load failing with "not found" ends with
both state fields unset and the backup untouched. -/
theorem boundary_ops_failure_behavior_witness :
    (load_unit_data ⟨none, none⟩ none [1]).1 = ⟨none, none⟩ ∧
    (load_unit_data ⟨none, none⟩ none [1]).2.1 = none :=
  (boundary_ops_failure_behavior ⟨none, none⟩ none [1] [] [] 0 rZero 0 0).2.2.2.2
    Err.notFound (by decide)

/-- The table-sized all-zero buffer used for concrete codec instances. -/
def zeroTable : List Nat := List.replicate (SLOT_SIZE * NUM_SLOTS_TOTAL) 0

/-- Record whose hidden Unknown1 field is 300, outside the byte range. -/
def rWrap300 : UnitRecord :=
  ⟨1, 300, 2, 3, 4, 5, 6, 7, 8, 9, 10, 11, 12, 13, 14, 15, 16, 17, 18, 19, 20⟩

lemma except_bind_ok {E A B : Type} (a : A) (f : A → Except E B) :
    (Except.ok a : Except E A).bind f = f a := rfl

/-- Counterexample to C2 as stated: the round-trip fails for a field set
whose Name is in range but whose Unknown1 field is 300 — the encoder masks
it to `300 & 0xFF = 44`, so decoding returns 44, not 300. -/
theorem roundtrip_counterexample :
    zeroTable.length = SLOT_SIZE * NUM_SLOTS_TOTAL ∧
    (0 ≤ rWrap300.name ∧ rWrap300.name ≤ 0xFFFF) ∧
    ((submit_unit zeroTable 0 rWrap300).bind fun b => unit_display b 0)
      ≠ Except.ok rWrap300 := by
  refine ⟨by simp [zeroTable], by decide, ?_⟩
  have hsub : submit_unit zeroTable 0 rWrap300
      = Except.ok (writeAt zeroTable ((0 : Int).toNat * SLOT_SIZE)
          (encodeRecord rWrap300)) := by
    rw [submit_unit, if_pos (by decide), if_pos (by decide)]
  rw [hsub, except_bind_ok]
  rw [unit_display, if_pos (by decide)]
  have hsl : ((writeAt zeroTable ((0 : Int).toNat * SLOT_SIZE)
        (encodeRecord rWrap300)).drop ((0 : Int).toNat * SLOT_SIZE)).take SLOT_SIZE
      = encodeRecord rWrap300 :=
    writeAt_slice zeroTable (encodeRecord rWrap300) _ (Nat.zero_le _)
  rw [hsl]
  decide

/-- All non-Name fields of the record lie in the byte range `[0, 255]`. -/
def bytesInRange (r : UnitRecord) : Prop :=
  (0 ≤ r.unknown1 ∧ r.unknown1 ≤ 255) ∧ (0 ≤ r.voice ∧ r.voice ≤ 255) ∧
  (0 ≤ r.model ∧ r.model ≤ 255) ∧ (0 ≤ r.color ∧ r.color ≤ 255) ∧
  (0 ≤ r.moveset ∧ r.moveset ≤ 255) ∧ (0 ≤ r.horse ∧ r.horse ≤ 255) ∧
  (0 ≤ r.life ∧ r.life ≤ 255) ∧ (0 ≤ r.attack ∧ r.attack ≤ 255) ∧
  (0 ≤ r.defense ∧ r.defense ≤ 255) ∧ (0 ≤ r.bow ∧ r.bow ≤ 255) ∧
  (0 ≤ r.mounted ∧ r.mounted ≤ 255) ∧ (0 ≤ r.speed ∧ r.speed ≤ 255) ∧
  (0 ≤ r.strafespeed ∧ r.strafespeed ≤ 255) ∧ (0 ≤ r.jump ∧ r.jump ≤ 255) ∧
  (0 ≤ r.ailevel ∧ r.ailevel ≤ 255) ∧ (0 ≤ r.aitype ∧ r.aitype ≤ 255) ∧
  (0 ≤ r.unknown2 ∧ r.unknown2 ≤ 255) ∧ (0 ≤ r.weapon ∧ r.weapon ≤ 255) ∧
  (0 ≤ r.weaponlevel ∧ r.weaponlevel ≤ 255) ∧ (0 ≤ r.orb ∧ r.orb ≤ 255)

instance bytesInRangeDecidable (r : UnitRecord) : Decidable (bytesInRange r) := by
  unfold bytesInRange
  infer_instance

/-- C2 amended: for every table-sized buffer, valid slot index, and field
set whose Name is in `[0, 65535]` and whose other fields are each in
`[0, 255]`, decode after encode returns the field set unchanged.  (Fields
outside the byte range are masked by `& 0xFF`, so the unrestricted
round-trip of the original claim fails; see the counterexample.) -/
theorem submit_display_roundtrip (buf : List Nat) (slot_index : Int)
    (r : UnitRecord)
    (hlen : buf.length = SLOT_SIZE * NUM_SLOTS_TOTAL)
    (hslot : 0 ≤ slot_index ∧ slot_index < (NUM_SLOTS_TOTAL : Int))
    (hname : 0 ≤ r.name ∧ r.name ≤ 0xFFFF)
    (hfields : bytesInRange r) :
    ((submit_unit buf slot_index r).bind fun b => unit_display b slot_index)
      = Except.ok r := by
  have h895 : NUM_SLOTS_TOTAL = 895 := rfl
  have h22 : SLOT_SIZE = 22 := rfl
  have hoff : slot_index.toNat * SLOT_SIZE + SLOT_SIZE ≤ buf.length := by
    have h2 := hslot.2
    have h3 : slot_index.toNat ≤ 894 := by omega
    have h4 : slot_index.toNat * SLOT_SIZE ≤ 894 * SLOT_SIZE :=
      Nat.mul_le_mul_right SLOT_SIZE h3
    have h5 : buf.length = 19690 := hlen.trans rfl
    have h6 : 894 * SLOT_SIZE = 19668 := rfl
    omega
  have hsub : submit_unit buf slot_index r
      = Except.ok (writeAt buf (slot_index.toNat * SLOT_SIZE)
          (encodeRecord r)) := by
    rw [submit_unit, if_pos hslot, if_pos hname]
  rw [hsub]
  show unit_display
      (writeAt buf (slot_index.toNat * SLOT_SIZE) (encodeRecord r)) slot_index
    = Except.ok r
  rw [unit_display, if_pos hslot]
  have hsl : ((writeAt buf (slot_index.toNat * SLOT_SIZE)
        (encodeRecord r)).drop (slot_index.toNat * SLOT_SIZE)).take SLOT_SIZE
      = encodeRecord r :=
    writeAt_slice buf (encodeRecord r) _ (by omega)
  rw [hsl]
  obtain ⟨nm, f1, f2, f3, f4, f5, f6, f7, f8, f9, f10, f11, f12, f13, f14,
    f15, f16, f17, f18, f19, f20⟩ := r
  simp only [bytesInRange, encodeRecord, decodeBytes, byteOf,
    Except.ok.injEq, UnitRecord.mk.injEq] at hname hfields ⊢
  omega

/-- In-range record for the C2 witness. -/
def rSample : UnitRecord :=
  ⟨1000, 1, 2, 3, 4, 5, 6, 7, 8, 9, 10, 11, 12, 13, 14, 15, 16, 17, 18,
   255, 0⟩

/-- Witness for the amended C2 at slot 3 on the table-sized zero buffer. -/
theorem submit_display_roundtrip_witness :
    zeroTable.length = SLOT_SIZE * NUM_SLOTS_TOTAL ∧
    ((submit_unit zeroTable 3 rSample).bind fun b => unit_display b 3)
      = Except.ok rSample :=
  ⟨by simp [zeroTable],
   submit_display_roundtrip zeroTable 3 rSample (by simp [zeroTable])
     (by decide) (by decide) (by decide)⟩

/-- C9: a successful submit rewrites only the 22-byte slice of the selected
slot: the buffer keeps its length and every byte outside
`[slot * 22, slot * 22 + 22)` is unchanged. -/
theorem submit_frame (buf out : List Nat) (slot_index : Int) (r : UnitRecord)
    (hlen : buf.length = SLOT_SIZE * NUM_SLOTS_TOTAL)
    (hsub : submit_unit buf slot_index r = Except.ok out) :
    out.length = buf.length ∧
    ∀ j, j < buf.length →
      (j < slot_index.toNat * SLOT_SIZE ∨
        slot_index.toNat * SLOT_SIZE + SLOT_SIZE ≤ j) →
      out.getD j 0 = buf.getD j 0 := by
  have h895 : NUM_SLOTS_TOTAL = 895 := rfl
  have h22 : SLOT_SIZE = 22 := rfl
  by_cases hs : 0 ≤ slot_index ∧ slot_index < (NUM_SLOTS_TOTAL : Int)
  case neg =>
    rw [submit_unit, if_neg hs] at hsub
    cases hsub
  by_cases hn : 0 ≤ r.name ∧ r.name ≤ 0xFFFF
  case neg =>
    rw [submit_unit, if_pos hs, if_neg hn] at hsub
    cases hsub
  rw [submit_unit, if_pos hs, if_pos hn] at hsub
  have hout : writeAt buf (slot_index.toNat * SLOT_SIZE) (encodeRecord r)
      = out := by injection hsub
  have helen : (encodeRecord r).length = SLOT_SIZE := rfl
  have hfit : slot_index.toNat * SLOT_SIZE + (encodeRecord r).length
      ≤ buf.length := by
    have h2 := hs.2
    have h3 : slot_index.toNat ≤ 894 := by omega
    have h4 : slot_index.toNat * SLOT_SIZE ≤ 894 * SLOT_SIZE :=
      Nat.mul_le_mul_right SLOT_SIZE h3
    have h5 : buf.length = 19690 := hlen.trans rfl
    have h6 : 894 * SLOT_SIZE = 19668 := rfl
    rw [helen]
    omega
  constructor
  · rw [← hout]
    exact writeAt_length buf (encodeRecord r) _ hfit
  · intro j hj hside
    rw [← hout, writeAt_getD buf (encodeRecord r) _ j hfit]
    rcases hside with hside | hside
    · rw [if_pos hside]
    · rw [if_neg (by omega), if_neg (by omega)]

/-- Record used by the C9 witness. -/
def rFrame : UnitRecord :=
  ⟨7, 1, 2, 3, 4, 5, 6, 7, 8, 9, 10, 11, 12, 13, 14, 15, 16, 17, 18, 19, 20⟩

/-- Witness for C9: submitting to slot 0 keeps the buffer length and leaves
byte 30 (outside slot 0) unchanged. -/
theorem submit_frame_witness :
    (writeAt zeroTable ((0 : Int).toNat * SLOT_SIZE) (encodeRecord rFrame)).length
      = zeroTable.length ∧
    (writeAt zeroTable ((0 : Int).toNat * SLOT_SIZE) (encodeRecord rFrame)).getD 30 0
      = zeroTable.getD 30 0 := by
  have hsub : submit_unit zeroTable 0 rFrame
      = Except.ok (writeAt zeroTable ((0 : Int).toNat * SLOT_SIZE)
          (encodeRecord rFrame)) := by
    rw [submit_unit, if_pos (by decide), if_pos (by decide)]
  have h := submit_frame zeroTable
    (writeAt zeroTable ((0 : Int).toNat * SLOT_SIZE) (encodeRecord rFrame))
    0 rFrame (by simp [zeroTable]) hsub
  refine ⟨h.1, h.2 30 ?_ (by decide)⟩
  simp only [zeroTable, List.length_replicate]
  decide
